import Mathlib

/-!
Verification of the wing-loss input pipeline (`input_pipeline/input_pipeline.py`).

The development shallowly embeds the pipeline's geometry and batching code:
images are pixel buffers over exact rationals, boxes and landmarks are rational
coordinates, TensorFlow float arithmetic is modelled by exact `ℚ` arithmetic,
`tf.to_int32` by truncation toward zero, and the `tf.data` stream combinators
by list operations.  The augmentation module (`augmentations.py`) is not part
of the sources, so its transforms are modelled from the specification, with the
randomness (angle, gates, factors, kernels) passed in explicitly.
-/

set_option maxHeartbeats 1000000

namespace WingLoss

/-- A bounding box `(ymin, xmin, ymax, xmax)`, matching the stacking order used
by `_parse_and_preprocess`. -/
structure Box where
  ymin : ℚ
  xmin : ℚ
  ymax : ℚ
  xmax : ℚ

/-- An image: a height-by-width pixel buffer with 3 channels.  The pixel map is
total; only indices below `h`, `w` (and channels below 3) are meaningful. -/
structure Image where
  h : ℕ
  w : ℕ
  pix : ℕ → ℕ → ℕ → ℚ

/-- Model of `tf.clip_by_value(x, 0.0, 1.0)` on a scalar. -/
def clip01 (q : ℚ) : ℚ := min (max q 0) 1

/-- Componentwise `tf.clip_by_value(box, 0.0, 1.0)` applied at decode time. -/
def clipBox (box : Box) : Box :=
  ⟨clip01 box.ymin, clip01 box.xmin, clip01 box.ymax, clip01 box.xmax⟩

/-- Model of `tf.to_int32` on the quantities used by `crop`: float-to-int
conversion truncating toward zero. -/
def truncQ (q : ℚ) : ℤ := if q < 0 then -Int.floor (-q) else Int.floor q

/-- The expanded-and-clamped crop bounds computed inside `crop` (lines 143-155
of the source): box to pixel coordinates, `margin = dimension / 2`, each side
moved by `0.5 * margin`, then clamped to `[0, image_h]` and `[0, image_w]`. -/
def cropRegion (image_h image_w : ℚ) (box : Box) : Box :=
  let ymin := box.ymin * image_h
  let xmin := box.xmin * image_w
  let ymax := box.ymax * image_h
  let xmax := box.xmax * image_w
  let h := ymax - ymin
  let w := xmax - xmin
  let margin_y := h / 2
  let margin_x := w / 2
  ⟨max (ymin - 0.5 * margin_y) 0, max (xmin - 0.5 * margin_x) 0,
   min (ymax + 0.5 * margin_y) image_h, min (xmax + 0.5 * margin_x) image_w⟩

/-- The crop region as the spec's words describe it: the pixel box expanded on
each of its four sides by 50 percent of the box's own height (for y) and width
(for x), then clamped.  Written from the spec sentence, for comparison with
`cropRegion`. -/
def cropRegionSpecHalf (image_h image_w : ℚ) (box : Box) : Box :=
  let ymin := box.ymin * image_h
  let xmin := box.xmin * image_w
  let ymax := box.ymax * image_h
  let xmax := box.xmax * image_w
  let h := ymax - ymin
  let w := xmax - xmin
  ⟨max (ymin - h / 2) 0, max (xmin - w / 2) 0,
   min (ymax + h / 2) image_h, min (xmax + w / 2) image_w⟩

/-- The pixel box expanded on each side by 25 percent of the box's own height
(for y) and width (for x), then clamped: the amended description of the crop
region. -/
def cropRegionSpecQuarter (image_h image_w : ℚ) (box : Box) : Box :=
  let ymin := box.ymin * image_h
  let xmin := box.xmin * image_w
  let ymax := box.ymax * image_h
  let xmax := box.xmax * image_w
  let h := ymax - ymin
  let w := xmax - xmin
  ⟨max (ymin - h / 4) 0, max (xmin - w / 4) 0,
   min (ymax + h / 4) image_h, min (xmax + w / 4) image_w⟩

/-- The pixel window `tf.image.crop_to_bounding_box` computes when its runtime
assertions pass: shift the pixel origin and set the new extent. -/
def cropWindow (image : Image) (offsetH offsetW targetH targetW : ℕ) : Image :=
  ⟨targetH, targetW, fun i j c => image.pix (i + offsetH) (j + offsetW) c⟩

/-- Model of `tf.image.crop_to_bounding_box`, including the op's runtime
assertions: the target height and width must be strictly positive and the
crop window must lie inside the image (the offsets, natural numbers here, are
also asserted nonnegative by the op).  With tensor-valued arguments these are
`Assert` ops evaluated at session run time, so a violating window raises -
TensorFlow's `InvalidArgumentError`, modelled by the error case - instead of
producing a window. -/
def cropToBoundingBox (image : Image) (offsetH offsetW targetH targetW : ℕ) :
    Except String Image :=
  if 0 < targetH ∧ 0 < targetW ∧ offsetH + targetH ≤ image.h ∧ offsetW + targetW ≤ image.w then
    Except.ok (cropWindow image offsetH offsetW targetH targetW)
  else Except.error "InvalidArgumentError: crop window assertions failed"

/-- The integer offsets and sizes `crop` actually feeds to
`tf.image.crop_to_bounding_box`: `to_int32(ymin), to_int32(xmin),
to_int32(ymax - ymin), to_int32(xmax - xmin)` of the clamped expanded bounds. -/
def cropPixelRegion (image : Image) (box : Box) : ℕ × ℕ × ℕ × ℕ :=
  ((truncQ (cropRegion image.h image.w box).ymin).toNat,
   (truncQ (cropRegion image.h image.w box).xmin).toNat,
   (truncQ ((cropRegion image.h image.w box).ymax - (cropRegion image.h image.w box).ymin)).toNat,
   (truncQ ((cropRegion image.h image.w box).xmax - (cropRegion image.h image.w box).xmin)).toNat)

/-- The exact (un-truncated) bounds in which `crop` re-normalizes landmarks:
origin `(ymin, xmin)` and extent `(ymax - ymin, xmax - xmin)`. -/
def cropLandmarkFrame (image : Image) (box : Box) : ℚ × ℚ × ℚ × ℚ :=
  ((cropRegion image.h image.w box).ymin, (cropRegion image.h image.w box).xmin,
   (cropRegion image.h image.w box).ymax - (cropRegion image.h image.w box).ymin,
   (cropRegion image.h image.w box).xmax - (cropRegion image.h image.w box).xmin)

/-- Rational view of the truncated pixel region, for comparing it with
`cropLandmarkFrame`. -/
def castRegion (r : ℕ × ℕ × ℕ × ℕ) : ℚ × ℚ × ℚ × ℚ :=
  ((r.1 : ℚ), (r.2.1 : ℚ), (r.2.2.1 : ℚ), (r.2.2.2 : ℚ))

/-- The values the `crop` function of the source (lines 143-164) computes:
the image window at the truncated expanded-box bounds, and every landmark
rebased by `landmarks * scaler - shift` with
`scaler = image_extent / crop_extent` and `shift = crop_origin / crop_extent`,
per axis.  The image component is the window `crop_to_bounding_box` yields
when its runtime assertions pass; `cropChecked` composes the same computation
with the op's assertion (and `cropChecked_ok` ties the two together). -/
def crop (image : Image) (landmarks : List (ℚ × ℚ)) (box : Box) :
    Image × List (ℚ × ℚ) :=
  let r := cropRegion image.h image.w box
  let reg := cropPixelRegion image box
  (cropWindow image reg.1 reg.2.1 reg.2.2.1 reg.2.2.2,
   landmarks.map fun p =>
     (p.1 * ((image.h : ℚ) / (r.ymax - r.ymin)) - r.ymin / (r.ymax - r.ymin),
      p.2 * ((image.w : ℚ) / (r.xmax - r.xmin)) - r.xmin / (r.xmax - r.xmin)))

/-- The `crop` function of the source including the runtime behavior of its
`tf.image.crop_to_bounding_box` call: when the op's assertions fail (as they
do for a degenerate region, whose truncated target size is 0) the whole crop
raises instead of producing a value. -/
def cropChecked (image : Image) (landmarks : List (ℚ × ℚ)) (box : Box) :
    Except String (Image × List (ℚ × ℚ)) :=
  match cropToBoundingBox image (cropPixelRegion image box).1 (cropPixelRegion image box).2.1
      (cropPixelRegion image box).2.2.1 (cropPixelRegion image box).2.2.2 with
  | Except.ok newImage => Except.ok (newImage, (crop image landmarks box).2)
  | Except.error e => Except.error e

/-- The inverse of `crop`'s affine landmark map: back to old-image pixel
coordinates and re-normalize by the old image extent. -/
def cropInverse (image : Image) (box : Box) (p : ℚ × ℚ) : ℚ × ℚ :=
  ((p.1 * ((cropRegion image.h image.w box).ymax - (cropRegion image.h image.w box).ymin)
      + (cropRegion image.h image.w box).ymin) / (image.h : ℚ),
   (p.2 * ((cropRegion image.h image.w box).xmax - (cropRegion image.h image.w box).xmin)
      + (cropRegion image.h image.w box).xmin) / (image.w : ℚ))

/-- A 100-by-100 all-zero image, used as a concrete test input. -/
def imageD : Image := ⟨100, 100, fun _ _ _ => 0⟩

/-- A box strictly inside the unit square with a nontrivial extent. -/
def boxC1 : Box := ⟨2/5, 2/5, 3/5, 3/5⟩

/-- A degenerate (zero-area) box. -/
def boxD : Box := ⟨1/2, 1/2, 1/2, 1/2⟩

/-- A box whose expanded-and-clamped bounds are not all integers on a
100-by-100 image. -/
def boxT : Box := ⟨0, 0, 1/8, 1/8⟩

/-- Model of `tf.image.resize_images` with the pipeline's fixed `BILINEAR` method,
modelled from the documented semantics of the TensorFlow op (no corner
alignment): output pixel `(i, j)` samples the input at
`(i * h / outH, j * w / outW)` by bilinear interpolation of the four
surrounding pixels, edge-clamped. -/
def resizeBilinear (outH outW : ℕ) (image : Image) : Image :=
  ⟨outH, outW, fun i j c =>
    let sy : ℚ := (i : ℚ) * (image.h : ℚ) / (outH : ℚ)
    let sx : ℚ := (j : ℚ) * (image.w : ℚ) / (outW : ℚ)
    let y0 : ℕ := (Int.floor sy).toNat
    let x0 : ℕ := (Int.floor sx).toNat
    let y1 : ℕ := min (y0 + 1) (image.h - 1)
    let x1 : ℕ := min (x0 + 1) (image.w - 1)
    let dy : ℚ := sy - (y0 : ℚ)
    let dx : ℚ := sx - (x0 : ℚ)
    (1 - dy) * ((1 - dx) * image.pix y0 x0 c + dx * image.pix y0 x1 c)
      + dy * ((1 - dx) * image.pix y1 x0 c + dx * image.pix y1 x1 c)⟩

/-- A rank-3 tensor with explicit dimensions, for the channel-first output of
`_parse_and_preprocess`. -/
structure Tensor3 where
  d0 : ℕ
  d1 : ℕ
  d2 : ℕ
  val : ℕ → ℕ → ℕ → ℚ

/-- Model of `tf.transpose(image, perm=[2, 0, 1])`: HWC to CHW. -/
def toNCHW (image : Image) : Tensor3 :=
  ⟨3, image.h, image.w, fun c i j => image.pix i j c⟩

/-- All pixel values of an image lie in `[0, 1]`. -/
def inRange01 (image : Image) : Prop :=
  ∀ i j c, 0 ≤ image.pix i j c ∧ image.pix i j c ≤ 1

/-- All values of a rank-3 tensor lie in `[0, 1]`. -/
def inRangeT (t : Tensor3) : Prop :=
  ∀ a b c, 0 ≤ t.val a b c ∧ t.val a b c ≤ 1

/-- The per-example random draws of the augmentation path, passed explicitly:
the rotation's cosine and sine, the Bernoulli gates, the photometric color
map, the pixel-scale factor and the blur kernel. -/
structure AugParams where
  cosA : ℚ
  sinA : ℚ
  colorGate : Bool
  colorMap : ℚ → ℚ
  scaleGate : Bool
  scaleFactor : ℚ
  blurGate : Bool
  blurKernel : List (ℤ × ℤ × ℚ)
  flipGate : Bool

/-- Rotation of a pixel-space point about a center by the standard 2D rotation
matrix with cosine `c` and sine `s`. -/
def rotatePoint (c s cy cx y x : ℚ) : ℚ × ℚ :=
  (cy + c * (y - cy) - s * (x - cx), cx + s * (y - cy) + c * (x - cx))

/-- Modelled from the spec: `random_rotation` (from the missing
`augmentations.py`) rotates the image about its center (sampling each output
pixel from the inversely rotated source position, zero fill outside), rotates
the box's corners and takes their bounding box, and rotates every landmark in
pixel space before re-normalizing.  The drawn angle is abstracted by its
cosine `c` and sine `s`. -/
def random_rotation (c s : ℚ) (image : Image) (box : Box)
    (landmarks : List (ℚ × ℚ)) : Image × Box × List (ℚ × ℚ) :=
  let hh : ℚ := (image.h : ℚ)
  let ww : ℚ := (image.w : ℚ)
  let cy := hh / 2
  let cx := ww / 2
  let newImage : Image := ⟨image.h, image.w, fun i j ch =>
    let src := rotatePoint c (-s) cy cx (i : ℚ) (j : ℚ)
    let yi := Int.floor (src.1 + 1/2)
    let xi := Int.floor (src.2 + 1/2)
    if 0 ≤ yi ∧ yi < (image.h : ℤ) ∧ 0 ≤ xi ∧ xi < (image.w : ℤ) then
      image.pix yi.toNat xi.toNat ch
    else 0⟩
  let corners := [rotatePoint c s cy cx (box.ymin * hh) (box.xmin * ww),
    rotatePoint c s cy cx (box.ymin * hh) (box.xmax * ww),
    rotatePoint c s cy cx (box.ymax * hh) (box.xmin * ww),
    rotatePoint c s cy cx (box.ymax * hh) (box.xmax * ww)]
  let ys := corners.map Prod.fst
  let xs := corners.map Prod.snd
  let newBox : Box := ⟨(ys.foldr min ys.headI) / hh, (xs.foldr min xs.headI) / ww,
    (ys.foldr max ys.headI) / hh, (xs.foldr max xs.headI) / ww⟩
  let newLandmarks := landmarks.map fun p =>
    let q := rotatePoint c s cy cx (p.1 * hh) (p.2 * ww)
    (q.1 / hh, q.2 / ww)
  (newImage, newBox, newLandmarks)

/-- Clip every pixel value to `[0, 1]`. -/
def clipImage01 (image : Image) : Image :=
  ⟨image.h, image.w, fun i j c => clip01 (image.pix i j c)⟩

/-- Modelled from the spec: `random_color_manipulations` (from the missing
`augmentations.py`) is a gated photometric-only transform - a per-value color
map - that touches no coordinates and preserves the data model's `[0, 1]`
pixel range. -/
def random_color_manipulations (gate : Bool) (f : ℚ → ℚ) (image : Image) : Image :=
  if gate then clipImage01 ⟨image.h, image.w, fun i j c => f (image.pix i j c)⟩ else image

/-- Modelled from the spec: `random_pixel_value_scale` (from the missing
`augmentations.py`) multiplies pixel values by a drawn factor under a gate and
re-clips them to `[0, 1]`. -/
def random_pixel_value_scale (gate : Bool) (factor : ℚ) (image : Image) : Image :=
  if gate then clipImage01 ⟨image.h, image.w, fun i j c => factor * image.pix i j c⟩ else image

/-- Clamp an integer offset into `[0, n - 1]`. -/
def clampIdx (n : ℕ) (z : ℤ) : ℕ := (min (max z 0) ((n : ℤ) - 1)).toNat

/-- Modelled from the spec: `random_gaussian_blur` (from the missing
`augmentations.py`) convolves the image, under a gate, with a fixed blur
kernel given as offset-weight triples, sampling edge-clamped pixels. -/
def random_gaussian_blur (gate : Bool) (kernel : List (ℤ × ℤ × ℚ)) (image : Image) : Image :=
  if gate then
    ⟨image.h, image.w, fun i j c =>
      (kernel.map fun k =>
        k.2.2 * image.pix (clampIdx image.h ((i : ℤ) + k.1))
          (clampIdx image.w ((j : ℤ) + k.2.1)) c).sum⟩
  else image

/-- Modelled from the spec: `random_flip_left_right` (from the missing
`augmentations.py`) mirrors the image left-right under a gate and maps each
landmark's x-coordinate to `1 - x`, preserving landmark order. -/
def random_flip_left_right (gate : Bool) (image : Image)
    (landmarks : List (ℚ × ℚ)) : Image × List (ℚ × ℚ) :=
  if gate then
    (⟨image.h, image.w, fun i j c => image.pix i (image.w - 1 - j) c⟩,
     landmarks.map fun p => (p.1, 1 - p.2))
  else (image, landmarks)

/-- A blur kernel whose weights are nonnegative and sum to one, as a Gaussian
kernel's are. -/
def kernelOk (kernel : List (ℤ × ℤ × ℚ)) : Prop :=
  (∀ k ∈ kernel, 0 ≤ k.2.2) ∧ (kernel.map fun k => k.2.2).sum = 1

/-- The construction parameters of `Pipeline.__init__`. -/
structure PipelineConfig where
  imageWidth : ℕ
  imageHeight : ℕ
  batchSize : ℕ
  numLandmarks : ℕ
  repeatFlag : Bool
  shuffleFlag : Bool
  augmentationFlag : Bool

/-- One decoded record: the decoded image, the raw box and the raw landmark
list, before the decode-time clamping done in `_parse_and_preprocess`. -/
structure Record where
  image : Image
  box : Box
  landmarks : List (ℚ × ℚ)

/-- Model of `Pipeline._augmentation_fn` (lines 124-140): rotation, then resize to the
target size, then color manipulation, then pixel-value scale, then Gaussian
blur, then horizontal flip; the box jitter and crop calls are commented out in
the source, so the rotated full image is resized directly. -/
def augmentationFn (cfg : PipelineConfig) (ap : AugParams) (image : Image)
    (box : Box) (landmarks : List (ℚ × ℚ)) : Image × List (ℚ × ℚ) :=
  let r1 := random_rotation ap.cosA ap.sinA image box landmarks
  let image2 := resizeBilinear cfg.imageHeight cfg.imageWidth r1.1
  let image3 := random_color_manipulations ap.colorGate ap.colorMap image2
  let image4 := random_pixel_value_scale ap.scaleGate ap.scaleFactor image3
  let image5 := random_gaussian_blur ap.blurGate ap.blurKernel image4
  let r2 := random_flip_left_right ap.flipGate image5 r1.2.2
  (r2.1, r2.2)

/-- The variant the source keeps commented out: a box-based `crop` between the
rotation and the resize.  Used only to show the actual path differs from it. -/
def augmentationWithCrop (cfg : PipelineConfig) (ap : AugParams) (image : Image)
    (box : Box) (landmarks : List (ℚ × ℚ)) : Image × List (ℚ × ℚ) :=
  let r1 := random_rotation ap.cosA ap.sinA image box landmarks
  let cr := crop r1.1 r1.2.2 r1.2.1
  let image2 := resizeBilinear cfg.imageHeight cfg.imageWidth cr.1
  let image3 := random_color_manipulations ap.colorGate ap.colorMap image2
  let image4 := random_pixel_value_scale ap.scaleGate ap.scaleFactor image3
  let image5 := random_gaussian_blur ap.blurGate ap.blurKernel image4
  let r2 := random_flip_left_right ap.flipGate image5 cr.2
  (r2.1, r2.2)

/-- Model of `Pipeline._parse_and_preprocess` after decoding: clamp box and landmarks
to `[0, 1]`, then either augment or crop-and-resize, then transpose to CHW. -/
def parseAndPreprocess (cfg : PipelineConfig) (ap : AugParams) (r : Record) :
    Tensor3 × List (ℚ × ℚ) :=
  let box := clipBox r.box
  let landmarks := r.landmarks.map fun p => (clip01 p.1, clip01 p.2)
  if cfg.augmentationFlag then
    let a := augmentationFn cfg ap r.image box landmarks
    (toNCHW a.1, a.2)
  else
    let cr := crop r.image landmarks box
    let image2 := resizeBilinear cfg.imageHeight cfg.imageWidth cr.1
    (toNCHW image2, cr.2)

/-- Model of `get_num_samples`: the number of records a shard yields. -/
def getNumSamples (shard : List Record) : ℕ := shard.length

/-- The per-shard counting loop of `Pipeline.__init__` (lines 36-40): each
shard is counted and `assert num_examples_in_file > 0` fails on the first
empty shard. -/
def countShardExamples : List (List Record) → Except String ℕ
  | [] => Except.ok 0
  | shard :: rest =>
    if 0 < getNumSamples shard then
      match countShardExamples rest with
      | Except.ok n => Except.ok (getNumSamples shard + n)
      | Except.error e => Except.error e
    else Except.error "assert failed: a shard yields zero records"

/-- The validating part of `Pipeline.__init__`: count all shards, assert each
is nonempty, then assert the total is positive.  Runs before any dataset
element is produced. -/
def pipelineInit (shards : List (List Record)) : Except String ℕ :=
  match countShardExamples shards with
  | Except.error e => Except.error e
  | Except.ok n => if 0 < n then Except.ok n else Except.error "assert failed: no records"

/-- The record stream of a non-repeating pipeline: optional shard-order
shuffle, flatten (`flat_map`), optional record-level shuffle.  The shuffles
are modelled by caller-supplied reorderings, required to be permutations in
the theorems; `dataset.repeat(1)` is the identity on the stream, and prefetch
does not change the stream. -/
def pipelineStream (cfg : PipelineConfig)
    (shardShuffle : List (List Record) → List (List Record))
    (recordShuffle : List Record → List Record)
    (shards : List (List Record)) : List Record :=
  let shards2 := if cfg.shuffleFlag then shardShuffle shards else shards
  let records := shards2.flatten
  if cfg.shuffleFlag then recordShuffle records else records

/-- Model of `dataset.batch(batch_size)` with TensorFlow's default semantics: groups of
`b` consecutive elements, the final group possibly smaller (no remainder
dropping). -/
def batchList {α : Type*} (b : ℕ) : List α → List (List α)
  | [] => []
  | x :: xs =>
    if h : b = 0 then []
    else (x :: xs).take b :: batchList b ((x :: xs).drop b)
termination_by l => l.length
decreasing_by
  simp only [List.length_drop, List.length_cons]
  omega

/-- The expected batch sizes for `n` records and batch size `b`: `n / b` full
batches and, when `b` does not divide `n`, a final partial batch of `n % b`. -/
def batchSizes (n b : ℕ) : List ℕ :=
  List.replicate (n / b) b ++ (if n % b = 0 then [] else [n % b])

/-- The record stream mapped through `_parse_and_preprocess`, each record with
its own random draws. -/
def processedStream (cfg : PipelineConfig)
    (shardShuffle : List (List Record) → List (List Record))
    (recordShuffle : List Record → List Record)
    (params : ℕ → AugParams)
    (shards : List (List Record)) : List (Tensor3 × List (ℚ × ℚ)) :=
  let records := pipelineStream cfg shardShuffle recordShuffle shards
  (records.zip (List.range records.length)).map fun pr =>
    parseAndPreprocess cfg (params pr.2) pr.1

/-- The batches a non-repeating pipeline emits: the processed record stream,
batched. -/
def pipelineBatches (cfg : PipelineConfig)
    (shardShuffle : List (List Record) → List (List Record))
    (recordShuffle : List Record → List Record)
    (params : ℕ → AugParams)
    (shards : List (List Record)) : List (List (Tensor3 × List (ℚ × ℚ))) :=
  batchList cfg.batchSize (processedStream cfg shardShuffle recordShuffle params shards)

/-- A 1-by-1 target size with augmentation enabled, for the C6 input. -/
def cfgE : PipelineConfig := ⟨1, 1, 1, 1, false, false, true⟩

/-- Trivial augmentation draws for concrete runs: identity rotation, all
gates off. -/
def apE : AugParams := ⟨1, 0, false, id, false, 1, false, [], false⟩

/-- A 2-by-2 all-zero image. -/
def imageE : Image := ⟨2, 2, fun _ _ _ => 0⟩

/-- The top-left quadrant box. -/
def boxE : Box := ⟨0, 0, 1/2, 1/2⟩

/-- A single centered landmark. -/
def lmsE : List (ℚ × ℚ) := [(1/2, 1/2)]

/-- A simple concrete record. -/
def recW : Record := ⟨⟨1, 1, fun _ _ _ => 1/2⟩, ⟨0, 0, 1, 1⟩, [(1/2, 1/2)]⟩

/-- A shard list containing an empty shard. -/
def shardsW : List (List Record) := [[recW], []]

/-- The construction used in the C3 counterexample: batch size 4, repeat
disabled, shuffle and augmentation off. -/
def cfgC3 : PipelineConfig := ⟨1, 1, 4, 1, false, false, false⟩

/-- One shard with 10 records. -/
def shardsC3 : List (List Record) := [List.replicate 10 recW]

/-- The construction used in the C4 counterexample: 2-by-2 target, batch size
2, one landmark, all flags off. -/
def cfgC4 : PipelineConfig := ⟨2, 2, 2, 1, false, false, false⟩

/-- A record whose landmark `(0, 0)` lies outside the crop region of its own
box, so the rebased landmark is negative. -/
def recC4 : Record := ⟨⟨100, 100, fun _ _ _ => 1/2⟩, ⟨2/5, 2/5, 3/5, 3/5⟩, [(0, 0)]⟩

/-- One shard with three copies of `recC4`. -/
def shardsC4 : List (List Record) := [[recC4, recC4, recC4]]

/-- The processed example the C4 counterexample pipeline emits. -/
def exC4 : Tensor3 × List (ℚ × ℚ) := parseAndPreprocess cfgC4 apE recC4

/-- Augmentation draws with a normalized one-point blur kernel. -/
def apW : AugParams := ⟨1, 0, false, id, false, 1, false, [(0, 0, 1)], false⟩

/-- The construction used in the C4 witness: batch size 1, one landmark. -/
def cfgW4 : PipelineConfig := ⟨2, 2, 1, 1, false, false, false⟩

/-- One shard with one record. -/
def shardsW4 : List (List Record) := [[recC4]]

/-- Claim C1, as stated, is false: the crop region is not the pixel box
expanded by 50 percent of its own size on each side.  Concretely, on a
100-by-100 image with box `(0.4, 0.4, 0.6, 0.6)` the code's region starts at
`ymin = 35` while the 50-percent expansion would start at `ymin = 30`. -/
theorem c1_half_margin_refuted :
    cropRegion 100 100 boxC1 ≠ cropRegionSpecHalf 100 100 boxC1 := by
  intro h
  have h1 := congrArg Box.ymin h
  simp only [cropRegion, cropRegionSpecHalf, boxC1] at h1
  norm_num [max_def] at h1

/-- Claim C1 (amended): for every image size and every box, the crop region
computed by `crop` equals the box converted to pixel coordinates, expanded on
each of its four sides by 25 percent of the box's own height (for y) and width
(for x) - that is, by half of the half-dimension margin - and then clamped to
the image's pixel bounds `[0, image_h]` and `[0, image_w]`. -/
theorem c1_region_is_quarter_margin (image_h image_w : ℚ) (box : Box) :
    cropRegion image_h image_w box = cropRegionSpecQuarter image_h image_w box := by
  simp only [cropRegion, cropRegionSpecQuarter]
  have h1 : box.ymin * image_h - 0.5 * ((box.ymax * image_h - box.ymin * image_h) / 2)
      = box.ymin * image_h - (box.ymax * image_h - box.ymin * image_h) / 4 := by ring
  have h2 : box.xmin * image_w - 0.5 * ((box.xmax * image_w - box.xmin * image_w) / 2)
      = box.xmin * image_w - (box.xmax * image_w - box.xmin * image_w) / 4 := by ring
  have h3 : box.ymax * image_h + 0.5 * ((box.ymax * image_h - box.ymin * image_h) / 2)
      = box.ymax * image_h + (box.ymax * image_h - box.ymin * image_h) / 4 := by ring
  have h4 : box.xmax * image_w + 0.5 * ((box.xmax * image_w - box.xmin * image_w) / 2)
      = box.xmax * image_w + (box.xmax * image_w - box.xmin * image_w) / 4 := by ring
  rw [h1, h2, h3, h4]

/-- Claim C2: for every landmark `(y, x)` in normalized coordinates of the
pre-crop image, `crop` produces the rebased landmark
`new = (old * image_extent - crop_origin) / crop_extent`, per axis, where the
origin and extent come from the clamped expanded-box bounds. -/
theorem c2_landmark_rebase (image : Image) (landmarks : List (ℚ × ℚ)) (box : Box) :
    (crop image landmarks box).2 = landmarks.map (fun p =>
      ((p.1 * (image.h : ℚ) - (cropRegion image.h image.w box).ymin) /
         ((cropRegion image.h image.w box).ymax - (cropRegion image.h image.w box).ymin),
       (p.2 * (image.w : ℚ) - (cropRegion image.h image.w box).xmin) /
         ((cropRegion image.h image.w box).xmax - (cropRegion image.h image.w box).xmin))) := by
  simp only [crop]
  have hfun : ∀ p : ℚ × ℚ,
      (p.1 * ((image.h : ℚ) / ((cropRegion image.h image.w box).ymax - (cropRegion image.h image.w box).ymin))
         - (cropRegion image.h image.w box).ymin / ((cropRegion image.h image.w box).ymax - (cropRegion image.h image.w box).ymin),
       p.2 * ((image.w : ℚ) / ((cropRegion image.h image.w box).xmax - (cropRegion image.h image.w box).xmin))
         - (cropRegion image.h image.w box).xmin / ((cropRegion image.h image.w box).xmax - (cropRegion image.h image.w box).xmin))
      = ((p.1 * (image.h : ℚ) - (cropRegion image.h image.w box).ymin) /
           ((cropRegion image.h image.w box).ymax - (cropRegion image.h image.w box).ymin),
         (p.2 * (image.w : ℚ) - (cropRegion image.h image.w box).xmin) /
           ((cropRegion image.h image.w box).xmax - (cropRegion image.h image.w box).xmin)) := by
    intro p
    refine Prod.ext ?_ ?_ <;> simp only [] <;> rw [sub_div, mul_div_assoc]
  exact List.map_congr_left fun p _ => hfun p

/-- One linear fact behind claim C5: expanding a nonempty pixel interval
symmetrically and clamping it to the image keeps its extent positive. -/
theorem extent_pos (bound a b : ℚ) (ha : 0 ≤ a) (hb : b ≤ bound) (hab : a < b) :
    0 < min (b + 0.5 * ((b - a) / 2)) bound - max (a - 0.5 * ((b - a) / 2)) 0 := by
  have h1 : max (a - 0.5 * ((b - a) / 2)) 0 ≤ a := max_le (by linarith) ha
  have h2 : b ≤ min (b + 0.5 * ((b - a) / 2)) bound := le_min (by linarith) hb
  linarith

/-- When the crop window assertions hold, `cropChecked` succeeds with exactly
the values `crop` computes: `crop` is the success-path projection of the
checked operation. -/
theorem cropChecked_ok (image : Image) (landmarks : List (ℚ × ℚ)) (box : Box)
    (h : 0 < (cropPixelRegion image box).2.2.1 ∧ 0 < (cropPixelRegion image box).2.2.2
      ∧ (cropPixelRegion image box).1 + (cropPixelRegion image box).2.2.1 ≤ image.h
      ∧ (cropPixelRegion image box).2.1 + (cropPixelRegion image box).2.2.2 ≤ image.w) :
    cropChecked image landmarks box = Except.ok (crop image landmarks box) := by
  unfold cropChecked cropToBoundingBox
  rw [if_pos h]
  rfl

/-- The truncated crop window of the degenerate box `boxD` on the 100-by-100
image: offsets 50, target sizes 0. -/
theorem regD : cropPixelRegion imageD boxD = (50, 50, 0, 0) := by
  have h1 : cropRegion (imageD.h : ℚ) (imageD.w : ℚ) boxD = ⟨50, 50, 50, 50⟩ := by
    norm_num [cropRegion, imageD, boxD, max_def, min_def]
  simp only [cropPixelRegion, h1]
  norm_num [truncQ, Prod.mk.injEq]
  all_goals rfl

/-- At the degenerate box `boxD`, the checked crop fails the window
assertions (zero target sizes) and raises. -/
theorem cropCheckedD :
    cropChecked imageD [((1:ℚ)/2, (1:ℚ)/2)] boxD
      = Except.error "InvalidArgumentError: crop window assertions failed" := by
  have hcond : ¬(0 < ((50, 50, 0, 0) : ℕ × ℕ × ℕ × ℕ).2.2.1
      ∧ 0 < ((50, 50, 0, 0) : ℕ × ℕ × ℕ × ℕ).2.2.2
      ∧ ((50, 50, 0, 0) : ℕ × ℕ × ℕ × ℕ).1 + ((50, 50, 0, 0) : ℕ × ℕ × ℕ × ℕ).2.2.1 ≤ imageD.h
      ∧ ((50, 50, 0, 0) : ℕ × ℕ × ℕ × ℕ).2.1 + ((50, 50, 0, 0) : ℕ × ℕ × ℕ × ℕ).2.2.2
          ≤ imageD.w) := by
    norm_num
  unfold cropChecked cropToBoundingBox
  rw [regD, if_neg hcond]

/-- Claim C5, as stated, is false: a record with a degenerate
expanded-and-clamped crop region is neither rejected before cropping nor
given a substituted minimum-extent crop.  Concretely, on a 100-by-100 image
the degenerate box `(0.5, 0.5, 0.5, 0.5)` passes the decode-time clamp
unchanged and reaches the crop (first conjunct), its clamped region has zero
height (second conjunct), and the crop then raises from
`crop_to_bounding_box`'s runtime size assertion - the model of TensorFlow's
`InvalidArgumentError` - rather than rejecting the record beforehand or
substituting a crop (third conjunct). -/
theorem c5_no_reject_refuted :
    clipBox boxD = boxD
    ∧ (cropRegion imageD.h imageD.w boxD).ymax - (cropRegion imageD.h imageD.w boxD).ymin = 0
    ∧ cropChecked imageD [((1:ℚ)/2, (1:ℚ)/2)] boxD
        = Except.error "InvalidArgumentError: crop window assertions failed" := by
  refine ⟨?_, ?_, cropCheckedD⟩
  · norm_num [clipBox, clip01, boxD, Box.mk.injEq, max_def, min_def]
  · norm_num [cropRegion, imageD, boxD, max_def, min_def]

/-- Claim C5 (amended): `crop` neither rejects a degenerate record before
cropping nor substitutes a minimum-extent crop - at the concrete degenerate
input, `crop_to_bounding_box`'s runtime size assertion fails and the crop
raises an error, a loud failure rather than a silent zero-size image (second
conjunct) - and under the documented precondition that the decode-clamped box
has strictly positive pixel height and width, the expanded-and-clamped crop
region has strictly positive extents, so every division in `crop`'s landmark
rebasing is by a nonzero value (first conjunct). -/
theorem c5_positive_extent (image : Image) (box : Box)
    (h1 : 0 ≤ box.ymin) (h2 : box.ymax ≤ 1) (h3 : 0 ≤ box.xmin) (h4 : box.xmax ≤ 1)
    (h5 : box.ymin * (image.h : ℚ) < box.ymax * (image.h : ℚ))
    (h6 : box.xmin * (image.w : ℚ) < box.xmax * (image.w : ℚ)) :
    (0 < (cropRegion image.h image.w box).ymax - (cropRegion image.h image.w box).ymin
      ∧ 0 < (cropRegion image.h image.w box).xmax - (cropRegion image.h image.w box).xmin)
    ∧ ∃ e, cropChecked imageD [((1:ℚ)/2, (1:ℚ)/2)] boxD = Except.error e := by
  refine ⟨?_, ⟨"InvalidArgumentError: crop window assertions failed", cropCheckedD⟩⟩
  have hH : (0:ℚ) ≤ (image.h : ℚ) := Nat.cast_nonneg _
  have hW : (0:ℚ) ≤ (image.w : ℚ) := Nat.cast_nonneg _
  have hyb : box.ymax * (image.h : ℚ) ≤ (image.h : ℚ) := by
    have := mul_le_mul_of_nonneg_right h2 hH
    simpa using this
  have hxb : box.xmax * (image.w : ℚ) ≤ (image.w : ℚ) := by
    have := mul_le_mul_of_nonneg_right h4 hW
    simpa using this
  constructor
  · have := extent_pos (image.h : ℚ) (box.ymin * (image.h : ℚ)) (box.ymax * (image.h : ℚ))
      (mul_nonneg h1 hH) hyb h5
    simpa only [cropRegion] using this
  · have := extent_pos (image.w : ℚ) (box.xmin * (image.w : ℚ)) (box.xmax * (image.w : ℚ))
      (mul_nonneg h3 hW) hxb h6
    simpa only [cropRegion] using this

/-- Witness for claim C5 at a concrete input. -/
theorem c5_positive_extent_witness :
    (0 < (cropRegion imageD.h imageD.w boxC1).ymax - (cropRegion imageD.h imageD.w boxC1).ymin
      ∧ 0 < (cropRegion imageD.h imageD.w boxC1).xmax - (cropRegion imageD.h imageD.w boxC1).xmin)
    ∧ ∃ e, cropChecked imageD [((1:ℚ)/2, (1:ℚ)/2)] boxD = Except.error e :=
  c5_positive_extent imageD boxC1 (by norm_num [boxC1]) (by norm_num [boxC1])
    (by norm_num [boxC1]) (by norm_num [boxC1])
    (by norm_num [boxC1, imageD]) (by norm_num [boxC1, imageD])

/-- Claim C8: applying `crop`'s affine landmark map and then its inverse
reproduces every original normalized landmark coordinate exactly (over the
exact rational arithmetic modelling the float computation), whenever the crop
extents and the image extents are nonzero. -/
theorem c8_roundtrip (image : Image) (landmarks : List (ℚ × ℚ)) (box : Box)
    (hH : (image.h : ℚ) ≠ 0) (hW : (image.w : ℚ) ≠ 0)
    (hey : (cropRegion image.h image.w box).ymax - (cropRegion image.h image.w box).ymin ≠ 0)
    (hex : (cropRegion image.h image.w box).xmax - (cropRegion image.h image.w box).xmin ≠ 0) :
    ((crop image landmarks box).2).map (cropInverse image box) = landmarks := by
  simp only [crop, List.map_map]
  have hfun : ∀ p : ℚ × ℚ, p ∈ landmarks →
      (cropInverse image box ∘ fun p : ℚ × ℚ =>
        (p.1 * ((image.h : ℚ) / ((cropRegion image.h image.w box).ymax - (cropRegion image.h image.w box).ymin))
           - (cropRegion image.h image.w box).ymin / ((cropRegion image.h image.w box).ymax - (cropRegion image.h image.w box).ymin),
         p.2 * ((image.w : ℚ) / ((cropRegion image.h image.w box).xmax - (cropRegion image.h image.w box).xmin))
           - (cropRegion image.h image.w box).xmin / ((cropRegion image.h image.w box).xmax - (cropRegion image.h image.w box).xmin))) p
      = p := by
    intro p _
    simp only [Function.comp, cropInverse]
    refine Prod.ext ?_ ?_ <;> field_simp
  rw [List.map_congr_left hfun]
  simp

/-- Witness for claim C8 at a concrete input. -/
theorem c8_roundtrip_witness :
    ((crop imageD [((1:ℚ)/2, (1:ℚ)/2)] boxC1).2).map (cropInverse imageD boxC1)
      = [((1:ℚ)/2, (1:ℚ)/2)] :=
  c8_roundtrip imageD [((1:ℚ)/2, (1:ℚ)/2)] boxC1
    (by norm_num [imageD]) (by norm_num [imageD])
    (by norm_num [cropRegion, imageD, boxC1, max_def, min_def])
    (by norm_num [cropRegion, imageD, boxC1, max_def, min_def])

/-- A nonnegative rational that is an integer is unchanged by truncation
toward zero followed by the casts used in `cropPixelRegion`. -/
theorem truncQ_int_exact (q : ℚ) (a : ℤ) (hqa : q = (a : ℚ)) (hq : 0 ≤ q) :
    (((truncQ q).toNat : ℕ) : ℚ) = q := by
  subst hqa
  have ha : 0 ≤ a := by exact_mod_cast hq
  have h1 : truncQ ((a : ℚ)) = a := by
    simp only [truncQ]
    rw [if_neg (by exact_mod_cast not_lt.mpr ha)]
    exact Int.floor_intCast a
  rw [h1]
  have h2 : ((a.toNat : ℤ) : ℚ) = (a : ℚ) := by
    rw [Int.toNat_of_nonneg ha]
  exact_mod_cast h2

/-- Claim C10: `crop` crops the image at integer-truncated offsets and sizes
while rebasing landmarks with the exact rational bounds; when all four clamped
bounds are integers the two agree exactly (first conjunct), and for the
concrete non-integer input `boxT` on a 100-by-100 image they differ (second
conjunct). -/
theorem c10_trunc_agreement (image : Image) (box : Box)
    (hy0 : 0 ≤ box.ymin) (hyo : box.ymin ≤ box.ymax) (hy1 : box.ymax ≤ 1)
    (hx0 : 0 ≤ box.xmin) (hxo : box.xmin ≤ box.xmax) (hx1 : box.xmax ≤ 1)
    (iy : ∃ a : ℤ, (cropRegion image.h image.w box).ymin = (a : ℚ))
    (ix : ∃ a : ℤ, (cropRegion image.h image.w box).xmin = (a : ℚ))
    (iy2 : ∃ a : ℤ, (cropRegion image.h image.w box).ymax = (a : ℚ))
    (ix2 : ∃ a : ℤ, (cropRegion image.h image.w box).xmax = (a : ℚ)) :
    castRegion (cropPixelRegion image box) = cropLandmarkFrame image box
    ∧ castRegion (cropPixelRegion imageD boxT) ≠ cropLandmarkFrame imageD boxT := by
  constructor
  · obtain ⟨ay, hay⟩ := iy
    obtain ⟨ax, hax⟩ := ix
    obtain ⟨by2, hby⟩ := iy2
    obtain ⟨bx2, hbx⟩ := ix2
    have hH : (0:ℚ) ≤ (image.h : ℚ) := Nat.cast_nonneg _
    have hW : (0:ℚ) ≤ (image.w : ℚ) := Nat.cast_nonneg _
    have hyminNN : 0 ≤ (cropRegion image.h image.w box).ymin := by
      simp only [cropRegion]; exact le_max_right _ _
    have hxminNN : 0 ≤ (cropRegion image.h image.w box).xmin := by
      simp only [cropRegion]; exact le_max_right _ _
    have hyord : (cropRegion image.h image.w box).ymin ≤ (cropRegion image.h image.w box).ymax := by
      have hd : 0 ≤ box.ymax * (image.h : ℚ) - box.ymin * (image.h : ℚ) := by
        have := mul_le_mul_of_nonneg_right hyo hH
        linarith
      have hyb : box.ymax * (image.h : ℚ) ≤ (image.h : ℚ) := by
        have := mul_le_mul_of_nonneg_right hy1 hH
        simpa using this
      simp only [cropRegion]
      have hl : max (box.ymin * (image.h : ℚ)
          - 0.5 * ((box.ymax * (image.h : ℚ) - box.ymin * (image.h : ℚ)) / 2)) 0
          ≤ box.ymin * (image.h : ℚ) :=
        max_le (by linarith) (mul_nonneg hy0 hH)
      have hr : box.ymax * (image.h : ℚ)
          ≤ min (box.ymax * (image.h : ℚ)
            + 0.5 * ((box.ymax * (image.h : ℚ) - box.ymin * (image.h : ℚ)) / 2)) (image.h : ℚ) :=
        le_min (by linarith) hyb
      have hm : box.ymin * (image.h : ℚ) ≤ box.ymax * (image.h : ℚ) :=
        mul_le_mul_of_nonneg_right hyo hH
      linarith
    have hxord : (cropRegion image.h image.w box).xmin ≤ (cropRegion image.h image.w box).xmax := by
      have hxb : box.xmax * (image.w : ℚ) ≤ (image.w : ℚ) := by
        have := mul_le_mul_of_nonneg_right hx1 hW
        simpa using this
      simp only [cropRegion]
      have hl : max (box.xmin * (image.w : ℚ)
          - 0.5 * ((box.xmax * (image.w : ℚ) - box.xmin * (image.w : ℚ)) / 2)) 0
          ≤ box.xmin * (image.w : ℚ) := by
        have hm : box.xmin * (image.w : ℚ) ≤ box.xmax * (image.w : ℚ) :=
          mul_le_mul_of_nonneg_right hxo hW
        exact max_le (by linarith) (mul_nonneg hx0 hW)
      have hr : box.xmax * (image.w : ℚ)
          ≤ min (box.xmax * (image.w : ℚ)
            + 0.5 * ((box.xmax * (image.w : ℚ) - box.xmin * (image.w : ℚ)) / 2)) (image.w : ℚ) := by
        have hm : box.xmin * (image.w : ℚ) ≤ box.xmax * (image.w : ℚ) :=
          mul_le_mul_of_nonneg_right hxo hW
        exact le_min (by linarith) hxb
      have hm : box.xmin * (image.w : ℚ) ≤ box.xmax * (image.w : ℚ) :=
        mul_le_mul_of_nonneg_right hxo hW
      linarith
    have e1 := truncQ_int_exact _ ay hay hyminNN
    have e2 := truncQ_int_exact _ ax hax hxminNN
    have e3 := truncQ_int_exact ((cropRegion image.h image.w box).ymax
        - (cropRegion image.h image.w box).ymin) (by2 - ay)
      (by rw [hay, hby]; push_cast; ring) (by linarith)
    have e4 := truncQ_int_exact ((cropRegion image.h image.w box).xmax
        - (cropRegion image.h image.w box).xmin) (bx2 - ax)
      (by rw [hax, hbx]; push_cast; ring) (by linarith)
    simp only [castRegion, cropPixelRegion, cropLandmarkFrame, Prod.mk.injEq]
    exact ⟨e1, e2, e3, e4⟩
  · intro h
    have h3 := congrArg (fun t : ℚ × ℚ × ℚ × ℚ => t.2.2.1) h
    simp only [castRegion, cropPixelRegion, cropLandmarkFrame, cropRegion,
      imageD, boxT] at h3
    norm_num [max_def, min_def, truncQ] at h3
    rw [show (15 : ℤ).toNat = 15 from rfl] at h3
    norm_num at h3

/-- Witness for claim C10 at a concrete input with integer clamped bounds. -/
theorem c10_trunc_agreement_witness :
    castRegion (cropPixelRegion imageD boxC1) = cropLandmarkFrame imageD boxC1
    ∧ castRegion (cropPixelRegion imageD boxT) ≠ cropLandmarkFrame imageD boxT :=
  c10_trunc_agreement imageD boxC1
    (by norm_num [boxC1]) (by norm_num [boxC1]) (by norm_num [boxC1])
    (by norm_num [boxC1]) (by norm_num [boxC1]) (by norm_num [boxC1])
    ⟨35, by norm_num [cropRegion, imageD, boxC1, max_def]⟩
    ⟨35, by norm_num [cropRegion, imageD, boxC1, max_def]⟩
    ⟨65, by norm_num [cropRegion, imageD, boxC1, min_def]⟩
    ⟨65, by norm_num [cropRegion, imageD, boxC1, min_def]⟩

theorem batchList_nil {α : Type*} (b : ℕ) : batchList b ([] : List α) = [] := by
  simp [batchList]

theorem batchList_cons {α : Type*} (b : ℕ) (hb : b ≠ 0) (x : α) (xs : List α) :
    batchList b (x :: xs) = (x :: xs).take b :: batchList b ((x :: xs).drop b) := by
  simp [batchList, hb]

theorem batchSizes_step (b n : ℕ) (hb : b ≠ 0) (hbn : b ≤ n) :
    b :: batchSizes (n - b) b = batchSizes n b := by
  have h1 : n = (n - b) + b := (Nat.sub_add_cancel hbn).symm
  have hd : n / b = (n - b) / b + 1 := by
    conv_lhs => rw [h1]
    exact Nat.add_div_right _ (Nat.pos_of_ne_zero hb)
  have hm : n % b = (n - b) % b := by
    conv_lhs => rw [h1]
    exact Nat.add_mod_right _ _
  simp [batchSizes, hd, hm, List.replicate_succ]

theorem batchList_map_length_aux {α : Type*} (b : ℕ) (hb : b ≠ 0) :
    ∀ (n : ℕ) (l : List α), l.length = n →
      (batchList b l).map List.length = batchSizes l.length b := by
  intro n
  induction n using Nat.strong_induction_on with
  | _ n ih =>
    intro l hn
    cases l with
    | nil => simp [batchList_nil, batchSizes]
    | cons x xs =>
      rw [batchList_cons b hb x xs]
      by_cases hlen : (x :: xs).length ≤ b
      · have hdrop : (x :: xs).drop b = [] := List.drop_eq_nil_of_le hlen
        rw [hdrop, batchList_nil]
        have hmin : ((x :: xs).take b).length = (x :: xs).length := by
          rw [List.length_take]
          omega
        rcases Nat.lt_or_ge (x :: xs).length b with hlt | hge
        · have hd : (x :: xs).length / b = 0 := Nat.div_eq_of_lt hlt
          have hm : (x :: xs).length % b = (x :: xs).length := Nat.mod_eq_of_lt hlt
          rw [List.map_cons, List.map_nil, hmin]
          simp only [batchSizes, hd, hm, List.replicate_zero, List.nil_append]
          rw [if_neg (by simp)]
        · have heq : (x :: xs).length = b := le_antisymm hlen hge
          rw [List.map_cons, List.map_nil, hmin, heq]
          simp only [batchSizes, Nat.div_self (Nat.pos_of_ne_zero hb), Nat.mod_self]
          simp
      · push_neg at hlen
        have hlb : ((x :: xs).take b).length = b := by
          rw [List.length_take]
          omega
        have hdl : ((x :: xs).drop b).length = (x :: xs).length - b :=
          List.length_drop _ _
        have ihm := ih ((x :: xs).length - b) (by omega) ((x :: xs).drop b) hdl
        rw [List.map_cons, hlb, ihm, hdl]
        exact batchSizes_step b (x :: xs).length hb (le_of_lt hlen)

theorem batchList_map_length {α : Type*} (b : ℕ) (hb : b ≠ 0) (l : List α) :
    (batchList b l).map List.length = batchSizes l.length b :=
  batchList_map_length_aux b hb l.length l rfl

theorem batchList_flatten_aux {α : Type*} (b : ℕ) (hb : b ≠ 0) :
    ∀ (n : ℕ) (l : List α), l.length = n → (batchList b l).flatten = l := by
  intro n
  induction n using Nat.strong_induction_on with
  | _ n ih =>
    intro l hn
    cases l with
    | nil => simp [batchList_nil]
    | cons x xs =>
      rw [batchList_cons b hb x xs]
      by_cases hlen : (x :: xs).length ≤ b
      · rw [List.drop_eq_nil_of_le hlen, batchList_nil]
        simp [List.take_of_length_le hlen]
      · push_neg at hlen
        have hdl : ((x :: xs).drop b).length = (x :: xs).length - b :=
          List.length_drop _ _
        have ihm := ih ((x :: xs).length - b) (by omega) ((x :: xs).drop b) hdl
        simp only [List.flatten_cons, ihm, List.take_append_drop]

theorem batchList_flatten {α : Type*} (b : ℕ) (hb : b ≠ 0) (l : List α) :
    (batchList b l).flatten = l :=
  batchList_flatten_aux b hb l.length l rfl

theorem batchList_mem {α : Type*} (b : ℕ) (l : List α) (B : List α)
    (hB : B ∈ batchList b l) (x : α) (hx : x ∈ B) : x ∈ l := by
  by_cases hb : b = 0
  · subst hb
    cases l with
    | nil => simp [batchList_nil] at hB
    | cons y ys => simp [batchList] at hB
  · rw [← batchList_flatten b hb l]
    exact List.mem_flatten.mpr ⟨B, hB, hx⟩

theorem pipelineStream_length (cfg : PipelineConfig)
    (shardShuffle : List (List Record) → List (List Record))
    (recordShuffle : List Record → List Record)
    (shards : List (List Record))
    (hss : (shardShuffle shards).Perm shards)
    (hrs : ∀ l : List Record, (recordShuffle l).Perm l) :
    (pipelineStream cfg shardShuffle recordShuffle shards).length
      = shards.flatten.length := by
  simp only [pipelineStream]
  cases hsf : cfg.shuffleFlag with
  | false => simp
  | true =>
    have h1 : (recordShuffle ((shardShuffle shards).flatten)).length
        = ((shardShuffle shards).flatten).length := (hrs _).length_eq
    have h2 : ((shardShuffle shards).flatten).length = shards.flatten.length := by
      rw [List.length_flatten, List.length_flatten]
      exact (hss.map List.length).sum_eq
    simp [h1, h2]

theorem processedStream_length (cfg : PipelineConfig)
    (shardShuffle : List (List Record) → List (List Record))
    (recordShuffle : List Record → List Record)
    (params : ℕ → AugParams)
    (shards : List (List Record)) :
    (processedStream cfg shardShuffle recordShuffle params shards).length
      = (pipelineStream cfg shardShuffle recordShuffle shards).length := by
  simp [processedStream]

theorem pipelineStream_mem (cfg : PipelineConfig)
    (shardShuffle : List (List Record) → List (List Record))
    (recordShuffle : List Record → List Record)
    (shards : List (List Record))
    (hss : (shardShuffle shards).Perm shards)
    (hrs : ∀ l : List Record, (recordShuffle l).Perm l)
    (r : Record) (hr : r ∈ pipelineStream cfg shardShuffle recordShuffle shards) :
    r ∈ shards.flatten := by
  simp only [pipelineStream] at hr
  cases hsf : cfg.shuffleFlag with
  | false =>
    rw [hsf] at hr
    simpa using hr
  | true =>
    rw [hsf] at hr
    simp at hr
    have h1 := (hrs ((shardShuffle shards).flatten)).mem_iff.mp hr
    obtain ⟨s, hs, hrs2⟩ := List.mem_flatten.mp h1
    exact List.mem_flatten.mpr ⟨s, hss.mem_iff.mp hs, hrs2⟩

/-- Claim C6: when augmentation is enabled the per-example transform is, in
this fixed order: rotation, then resize to the target size, then color
manipulation, then pixel-value scale, then Gaussian blur, then horizontal
flip (first conjunct, an identity for all inputs and draws); and the
box-based `crop` is not invoked on this path - the rotated full image is
resized directly - as witnessed by a concrete input on which the
crop-inserted variant produces different landmarks (second conjunct). -/
theorem c6_augmentation_order :
    (∀ (cfg : PipelineConfig) (ap : AugParams) (image : Image) (box : Box)
        (landmarks : List (ℚ × ℚ)),
      augmentationFn cfg ap image box landmarks =
        random_flip_left_right ap.flipGate
          (random_gaussian_blur ap.blurGate ap.blurKernel
            (random_pixel_value_scale ap.scaleGate ap.scaleFactor
              (random_color_manipulations ap.colorGate ap.colorMap
                (resizeBilinear cfg.imageHeight cfg.imageWidth
                  (random_rotation ap.cosA ap.sinA image box landmarks).1))))
          (random_rotation ap.cosA ap.sinA image box landmarks).2.2)
    ∧ (augmentationFn cfgE apE imageE boxE lmsE).2
        ≠ (augmentationWithCrop cfgE apE imageE boxE lmsE).2 := by
  constructor
  · intro cfg ap image box landmarks
    rfl
  · have h1 : (augmentationFn cfgE apE imageE boxE lmsE).2 = [((1:ℚ)/2, (1:ℚ)/2)] := by
      norm_num [augmentationFn, random_rotation, random_flip_left_right, rotatePoint,
        cfgE, apE, imageE, boxE, lmsE]
    have h2 : (augmentationWithCrop cfgE apE imageE boxE lmsE).2 = [((4:ℚ)/5, (4:ℚ)/5)] := by
      norm_num [augmentationWithCrop, random_rotation, random_flip_left_right, rotatePoint,
        crop, cropRegion, cfgE, apE, imageE, boxE, lmsE, max_def, min_def]
    rw [h1, h2]
    intro hcontra
    simp only [List.cons.injEq, Prod.mk.injEq] at hcontra
    norm_num at hcontra

/-- Claim C7: normalized landmark values are independent of the Resize step's
target size - for any two target sizes (all else equal) the per-example
transform emits bit-identical landmark lists, on both the augmented and the
non-augmented path; resize touches only the image. -/
theorem c7_resize_landmark_invariance (cfg : PipelineConfig) (h1 w1 h2 w2 : ℕ)
    (ap : AugParams) (r : Record) :
    (parseAndPreprocess { cfg with imageHeight := h1, imageWidth := w1 } ap r).2
      = (parseAndPreprocess { cfg with imageHeight := h2, imageWidth := w2 } ap r).2 := by
  obtain ⟨iw, ih, bs, nl, rep, shuf, aug⟩ := cfg
  cases aug with
  | false => rfl
  | true =>
    simp only [parseAndPreprocess, augmentationFn, random_flip_left_right]
    cases hflip : ap.flipGate <;> simp [hflip]

/-- Claim C9: if any shard yields zero records, pipeline construction fails
(the source's `assert num_examples_in_file > 0`) before any batch is produced
or requested; no empty shard is silently skipped. -/
theorem c9_empty_shard (shards : List (List Record))
    (h : ∃ shard ∈ shards, shard = []) :
    ∃ e, pipelineInit shards = Except.error e := by
  obtain ⟨shard, hmem, hnil⟩ := h
  subst hnil
  have hcount : ∃ e, countShardExamples shards = Except.error e := by
    induction shards with
    | nil => simp at hmem
    | cons s rest ih =>
      rcases List.mem_cons.mp hmem with h1 | h2
      · rw [← h1]
        exact ⟨"assert failed: a shard yields zero records",
          by simp [countShardExamples, getNumSamples]⟩
      · by_cases hs : 0 < s.length
        · obtain ⟨e, he⟩ := ih h2
          exact ⟨e, by simp [countShardExamples, getNumSamples, hs, he]⟩
        · exact ⟨"assert failed: a shard yields zero records",
            by simp [countShardExamples, getNumSamples, hs]⟩
  obtain ⟨e, he⟩ := hcount
  exact ⟨e, by simp [pipelineInit, he]⟩

/-- Witness for claim C9 at a concrete input. -/
theorem c9_empty_shard_witness : ∃ e, pipelineInit shardsW = Except.error e :=
  c9_empty_shard shardsW ⟨[], by simp [shardsW], rfl⟩

/-- Claim C3, as stated, is false: with shards containing 10 records and
batch size 4, the pipeline emits 3 batches (two full ones and a final partial
batch of 2), not exactly `10 / 4 = 2`; TensorFlow's `dataset.batch` keeps the
remainder. -/
theorem c3_floor_count_refuted :
    (pipelineBatches cfgC3 id id (fun _ => apE) shardsC3).length ≠ 2 := by
  have hb : (4 : ℕ) ≠ 0 := by norm_num
  have hlen : (processedStream cfgC3 id id (fun _ => apE) shardsC3).length = 10 := by
    simp [processedStream, pipelineStream, cfgC3, shardsC3]
  have h1 : (pipelineBatches cfgC3 id id (fun _ => apE) shardsC3).length
      = (batchSizes 10 4).length := by
    have h2 := batchList_map_length 4 hb (processedStream cfgC3 id id (fun _ => apE) shardsC3)
    rw [hlen] at h2
    calc (pipelineBatches cfgC3 id id (fun _ => apE) shardsC3).length
        = ((batchList 4 (processedStream cfgC3 id id (fun _ => apE) shardsC3)).map
            List.length).length := by
          simp [pipelineBatches, cfgC3]
      _ = (batchSizes 10 4).length := by rw [h2]
  rw [h1]
  simp [batchSizes]

/-- Claim C3 (amended): with repeat disabled the batch stream is finite (it
ends by exhaustion, not an error) and consists of
`num_examples / batch_size` full batches plus one final partial batch when the
batch size does not divide `num_examples` - in total
`⌈num_examples / batch_size⌉` batches - and no record is dropped: the batches
concatenate to the entire processed stream. -/
theorem c3_batch_count (cfg : PipelineConfig)
    (shardShuffle : List (List Record) → List (List Record))
    (recordShuffle : List Record → List Record)
    (params : ℕ → AugParams)
    (shards : List (List Record))
    (hb : cfg.batchSize ≠ 0) (hrep : cfg.repeatFlag = false)
    (hss : (shardShuffle shards).Perm shards)
    (hrs : ∀ l : List Record, (recordShuffle l).Perm l) :
    (pipelineBatches cfg shardShuffle recordShuffle params shards).length
        = shards.flatten.length / cfg.batchSize
          + (if shards.flatten.length % cfg.batchSize = 0 then 0 else 1)
    ∧ (pipelineBatches cfg shardShuffle recordShuffle params shards).flatten
        = processedStream cfg shardShuffle recordShuffle params shards := by
  have hlen : (processedStream cfg shardShuffle recordShuffle params shards).length
      = shards.flatten.length := by
    rw [processedStream_length]
    exact pipelineStream_length cfg shardShuffle recordShuffle shards hss hrs
  constructor
  · have h2 := batchList_map_length cfg.batchSize hb
      (processedStream cfg shardShuffle recordShuffle params shards)
    rw [hlen] at h2
    have h3 : (pipelineBatches cfg shardShuffle recordShuffle params shards).length
        = (batchSizes shards.flatten.length cfg.batchSize).length := by
      calc (pipelineBatches cfg shardShuffle recordShuffle params shards).length
          = ((batchList cfg.batchSize
              (processedStream cfg shardShuffle recordShuffle params shards)).map
                List.length).length := by simp [pipelineBatches]
        _ = _ := by rw [h2]
    rw [h3]
    simp only [batchSizes, List.length_append, List.length_replicate]
    split <;> simp
  · exact batchList_flatten cfg.batchSize hb _

/-- Witness for claim C3 at a concrete input: one shard of 10 records,
batch size 4. -/
theorem c3_batch_count_witness :
    (pipelineBatches cfgC3 id id (fun _ => apE) shardsC3).length
        = shardsC3.flatten.length / cfgC3.batchSize
          + (if shardsC3.flatten.length % cfgC3.batchSize = 0 then 0 else 1)
    ∧ (pipelineBatches cfgC3 id id (fun _ => apE) shardsC3).flatten
        = processedStream cfgC3 id id (fun _ => apE) shardsC3 :=
  c3_batch_count cfgC3 id id (fun _ => apE) shardsC3 (by norm_num [cfgC3]) rfl
    (List.Perm.refl _) (fun l => List.Perm.refl l)

theorem clip01_mem (q : ℚ) : 0 ≤ clip01 q ∧ clip01 q ≤ 1 := by
  constructor
  · exact le_min (le_max_right _ _) zero_le_one
  · exact min_le_right _ _

theorem lerp01 (t a b : ℚ) (ht0 : 0 ≤ t) (ht1 : t ≤ 1) (ha0 : 0 ≤ a) (ha1 : a ≤ 1)
    (hb0 : 0 ≤ b) (hb1 : b ≤ 1) :
    0 ≤ (1 - t) * a + t * b ∧ (1 - t) * a + t * b ≤ 1 := by
  constructor <;> nlinarith

theorem fract01 (q : ℚ) (hq : 0 ≤ q) :
    0 ≤ q - (((Int.floor q).toNat : ℕ) : ℚ) ∧ q - (((Int.floor q).toNat : ℕ) : ℚ) ≤ 1 := by
  have h0 : (0:ℤ) ≤ Int.floor q := Int.floor_nonneg.mpr hq
  have hc : (((Int.floor q).toNat : ℕ) : ℚ) = ((Int.floor q : ℤ) : ℚ) := by
    exact_mod_cast Int.toNat_of_nonneg h0
  rw [hc]
  constructor
  · have := Int.floor_le q
    linarith
  · have := Int.lt_floor_add_one q
    linarith

theorem resizeBilinear_range (outH outW : ℕ) (image : Image) (h : inRange01 image) :
    inRange01 (resizeBilinear outH outW image) := by
  intro i j c
  simp only [resizeBilinear]
  have hsy : (0:ℚ) ≤ (i : ℚ) * (image.h : ℚ) / (outH : ℚ) := by positivity
  have hsx : (0:ℚ) ≤ (j : ℚ) * (image.w : ℚ) / (outW : ℚ) := by positivity
  have hdy := fract01 _ hsy
  have hdx := fract01 _ hsx
  have h1 := h ((Int.floor ((i : ℚ) * (image.h : ℚ) / (outH : ℚ))).toNat)
    ((Int.floor ((j : ℚ) * (image.w : ℚ) / (outW : ℚ))).toNat) c
  have h2 := h ((Int.floor ((i : ℚ) * (image.h : ℚ) / (outH : ℚ))).toNat)
    (min ((Int.floor ((j : ℚ) * (image.w : ℚ) / (outW : ℚ))).toNat + 1) (image.w - 1)) c
  have h3 := h (min ((Int.floor ((i : ℚ) * (image.h : ℚ) / (outH : ℚ))).toNat + 1) (image.h - 1))
    ((Int.floor ((j : ℚ) * (image.w : ℚ) / (outW : ℚ))).toNat) c
  have h4 := h (min ((Int.floor ((i : ℚ) * (image.h : ℚ) / (outH : ℚ))).toNat + 1) (image.h - 1))
    (min ((Int.floor ((j : ℚ) * (image.w : ℚ) / (outW : ℚ))).toNat + 1) (image.w - 1)) c
  have htop := lerp01 _ _ _ hdx.1 hdx.2 h1.1 h1.2 h2.1 h2.2
  have hbot := lerp01 _ _ _ hdx.1 hdx.2 h3.1 h3.2 h4.1 h4.2
  exact lerp01 _ _ _ hdy.1 hdy.2 htop.1 htop.2 hbot.1 hbot.2

theorem crop_range (image : Image) (landmarks : List (ℚ × ℚ)) (box : Box)
    (h : inRange01 image) : inRange01 (crop image landmarks box).1 := by
  intro i j c
  exact h _ _ _

theorem random_rotation_range (c s : ℚ) (image : Image) (box : Box)
    (landmarks : List (ℚ × ℚ)) (h : inRange01 image) :
    inRange01 (random_rotation c s image box landmarks).1 := by
  intro i j ch
  simp only [random_rotation]
  split
  · exact h _ _ _
  · norm_num

theorem random_color_range (gate : Bool) (f : ℚ → ℚ) (image : Image)
    (h : inRange01 image) : inRange01 (random_color_manipulations gate f image) := by
  cases gate with
  | false => exact h
  | true => exact fun i j c => clip01_mem _

theorem random_scale_range (gate : Bool) (factor : ℚ) (image : Image)
    (h : inRange01 image) : inRange01 (random_pixel_value_scale gate factor image) := by
  cases gate with
  | false => exact h
  | true => exact fun i j c => clip01_mem _

theorem weighted_sum_range (kernel : List (ℤ × ℤ × ℚ)) (f : ℤ × ℤ × ℚ → ℚ)
    (hw : ∀ k ∈ kernel, 0 ≤ k.2.2)
    (hf : ∀ k ∈ kernel, 0 ≤ f k ∧ f k ≤ 1) :
    0 ≤ (kernel.map fun k => k.2.2 * f k).sum
    ∧ (kernel.map fun k => k.2.2 * f k).sum ≤ (kernel.map fun k => k.2.2).sum := by
  induction kernel with
  | nil => simp
  | cons k ks ih =>
    simp only [List.map_cons, List.sum_cons]
    have hk := hw k (by simp)
    have hfk := hf k (by simp)
    have ihs := ih (fun a ha => hw a (by simp [ha])) (fun a ha => hf a (by simp [ha]))
    constructor
    · have hcur : 0 ≤ k.2.2 * f k := mul_nonneg hk hfk.1
      linarith [ihs.1]
    · have hcur : k.2.2 * f k ≤ k.2.2 := by nlinarith [hfk.2, hk]
      linarith [ihs.2]

theorem random_blur_range (gate : Bool) (kernel : List (ℤ × ℤ × ℚ)) (image : Image)
    (h : inRange01 image) (hk : kernelOk kernel) :
    inRange01 (random_gaussian_blur gate kernel image) := by
  cases gate with
  | false => exact h
  | true =>
    intro i j c
    have hws := weighted_sum_range kernel
      (fun k => image.pix (clampIdx image.h ((i : ℤ) + k.1))
        (clampIdx image.w ((j : ℤ) + k.2.1)) c)
      hk.1 (fun k _ => h _ _ _)
    exact ⟨hws.1, le_trans hws.2 (le_of_eq hk.2)⟩

theorem random_flip_range (gate : Bool) (image : Image) (landmarks : List (ℚ × ℚ))
    (h : inRange01 image) : inRange01 (random_flip_left_right gate image landmarks).1 := by
  cases gate with
  | false => exact h
  | true => exact fun i j c => h _ _ _

theorem toNCHW_range (image : Image) (h : inRange01 image) : inRangeT (toNCHW image) :=
  fun a b c => h _ _ _

theorem augmentationFn_range (cfg : PipelineConfig) (ap : AugParams) (image : Image)
    (box : Box) (landmarks : List (ℚ × ℚ)) (h : inRange01 image)
    (hk : kernelOk ap.blurKernel) :
    inRange01 (augmentationFn cfg ap image box landmarks).1 :=
  random_flip_range _ _ _
    (random_blur_range _ _ _
      (random_scale_range _ _ _
        (random_color_range _ _ _
          (resizeBilinear_range _ _ _
            (random_rotation_range _ _ _ _ _ h))))
      hk)

theorem augmentationFn_dims (cfg : PipelineConfig) (ap : AugParams) (image : Image)
    (box : Box) (landmarks : List (ℚ × ℚ)) :
    (augmentationFn cfg ap image box landmarks).1.h = cfg.imageHeight
    ∧ (augmentationFn cfg ap image box landmarks).1.w = cfg.imageWidth := by
  simp only [augmentationFn]
  cases hf : ap.flipGate <;> cases hbl : ap.blurGate <;> cases hs : ap.scaleGate <;>
    cases hc : ap.colorGate <;>
      simp [random_flip_left_right, random_gaussian_blur, random_pixel_value_scale,
        random_color_manipulations, clipImage01, resizeBilinear, hf, hbl, hs, hc]

theorem augmentationFn_lms_length (cfg : PipelineConfig) (ap : AugParams) (image : Image)
    (box : Box) (landmarks : List (ℚ × ℚ)) :
    (augmentationFn cfg ap image box landmarks).2.length = landmarks.length := by
  simp only [augmentationFn, random_flip_left_right, random_rotation]
  cases hf : ap.flipGate <;> simp [hf]

theorem parseAndPreprocess_false (cfg : PipelineConfig) (ap : AugParams) (r : Record)
    (ha : cfg.augmentationFlag = false) :
    parseAndPreprocess cfg ap r =
      (toNCHW (resizeBilinear cfg.imageHeight cfg.imageWidth
        (crop r.image (r.landmarks.map fun p => (clip01 p.1, clip01 p.2)) (clipBox r.box)).1),
       (crop r.image (r.landmarks.map fun p => (clip01 p.1, clip01 p.2)) (clipBox r.box)).2) := by
  simp [parseAndPreprocess, ha]

theorem parseAndPreprocess_true (cfg : PipelineConfig) (ap : AugParams) (r : Record)
    (ha : cfg.augmentationFlag = true) :
    parseAndPreprocess cfg ap r =
      (toNCHW (augmentationFn cfg ap r.image (clipBox r.box)
          (r.landmarks.map fun p => (clip01 p.1, clip01 p.2))).1,
       (augmentationFn cfg ap r.image (clipBox r.box)
          (r.landmarks.map fun p => (clip01 p.1, clip01 p.2))).2) := by
  simp [parseAndPreprocess, ha]

theorem parseAndPreprocess_spec (cfg : PipelineConfig) (ap : AugParams) (r : Record)
    (hr : inRange01 r.image) (hk : kernelOk ap.blurKernel) :
    (parseAndPreprocess cfg ap r).1.d0 = 3
    ∧ (parseAndPreprocess cfg ap r).1.d1 = cfg.imageHeight
    ∧ (parseAndPreprocess cfg ap r).1.d2 = cfg.imageWidth
    ∧ inRangeT (parseAndPreprocess cfg ap r).1
    ∧ (parseAndPreprocess cfg ap r).2.length = r.landmarks.length := by
  cases ha : cfg.augmentationFlag with
  | false =>
    rw [parseAndPreprocess_false cfg ap r ha]
    refine ⟨rfl, rfl, rfl, ?_, ?_⟩
    · exact toNCHW_range _ (resizeBilinear_range _ _ _ (crop_range _ _ _ hr))
    · simp [crop]
  | true =>
    rw [parseAndPreprocess_true cfg ap r ha]
    have hd := augmentationFn_dims cfg ap r.image (clipBox r.box)
      (r.landmarks.map fun p => (clip01 p.1, clip01 p.2))
    refine ⟨rfl, hd.1, hd.2, ?_, ?_⟩
    · exact toNCHW_range _ (augmentationFn_range cfg ap _ _ _ hr hk)
    · rw [augmentationFn_lms_length]
      simp

theorem batchList_two {α : Type*} (a b c : α) : batchList 2 [a, b, c] = [[a, b], [c]] := by
  rw [batchList_cons 2 (by norm_num) a [b, c]]
  rw [show List.take 2 (a :: [b, c]) = [a, b] from rfl,
    show List.drop 2 (a :: [b, c]) = [c] from rfl]
  rw [batchList_cons 2 (by norm_num) c []]
  rw [show List.take 2 [c] = [c] from rfl, show List.drop 2 [c] = ([] : List α) from rfl,
    batchList_nil]

theorem exC4_landmarks : exC4.2 = [(-7/6, -7/6)] := by
  rw [exC4, parseAndPreprocess_false cfgC4 apE recC4 rfl]
  norm_num [crop, cropRegion, clipBox, clip01, recC4, cfgC4, max_def, min_def]

theorem batchesC4 :
    pipelineBatches cfgC4 id id (fun _ => apE) shardsC4 = [[exC4, exC4], [exC4]] := by
  have hstream : processedStream cfgC4 id id (fun _ => apE) shardsC4
      = [exC4, exC4, exC4] := rfl
  have h0 : pipelineBatches cfgC4 id id (fun _ => apE) shardsC4
      = batchList 2 (processedStream cfgC4 id id (fun _ => apE) shardsC4) := rfl
  rw [h0, hstream]
  exact batchList_two exC4 exC4 exC4

/-- Claim C4, as stated, is false on two counts, at a concrete non-repeating
pipeline over 3 records with batch size 2: the final batch has 1 row, not
`batch_size = 2`, and the landmark collection contains the value `-7/6`,
outside `[0, 1]` (a landmark outside the crop region is rebased to a negative
coordinate). -/
theorem c4_uniform_shape_refuted :
    (∃ B ∈ pipelineBatches cfgC4 id id (fun _ => apE) shardsC4,
      B.length ≠ cfgC4.batchSize)
    ∧ (∃ B ∈ pipelineBatches cfgC4 id id (fun _ => apE) shardsC4,
      ∃ ex ∈ B, ∃ p ∈ ex.2, p.1 < 0) := by
  constructor
  · refine ⟨[exC4], by rw [batchesC4]; simp, ?_⟩
    simp [cfgC4]
  · refine ⟨[exC4, exC4], by rw [batchesC4]; simp, exC4, by simp, ((-7)/6, (-7)/6), ?_, by norm_num⟩
    rw [exC4_landmarks]
    norm_num

/-- Claim C4 (amended): for every valid non-repeating construction, the
emitted batches' sizes are `batch_size` for every batch except possibly the
last, which holds `num_examples mod batch_size` examples when the batch size
does not divide `num_examples` (first conjunct, via `batchSizes`); and every
example of every batch has an Image collection entry of shape `[3, H, W]`
with all values in `[0, 1]` and a Landmark collection entry with exactly `N`
`(y, x)` pairs.  Rebased landmark values may lie outside `[0, 1]` (see the
counterexample); the hypotheses are the decoder's contract (pixel values in
`[0, 1]`, `N` landmarks per record) and normalized blur kernels. -/
theorem c4_batch_shape (cfg : PipelineConfig)
    (shardShuffle : List (List Record) → List (List Record))
    (recordShuffle : List Record → List Record)
    (params : ℕ → AugParams)
    (shards : List (List Record))
    (hb : cfg.batchSize ≠ 0) (hrep : cfg.repeatFlag = false)
    (hss : (shardShuffle shards).Perm shards)
    (hrs : ∀ l : List Record, (recordShuffle l).Perm l)
    (hrange : ∀ r ∈ shards.flatten, inRange01 r.image)
    (hcount : ∀ r ∈ shards.flatten, r.landmarks.length = cfg.numLandmarks)
    (hkernel : ∀ i, kernelOk (params i).blurKernel) :
    (pipelineBatches cfg shardShuffle recordShuffle params shards).map List.length
        = batchSizes shards.flatten.length cfg.batchSize
    ∧ ∀ B ∈ pipelineBatches cfg shardShuffle recordShuffle params shards, ∀ ex ∈ B,
        ex.1.d0 = 3 ∧ ex.1.d1 = cfg.imageHeight ∧ ex.1.d2 = cfg.imageWidth
        ∧ inRangeT ex.1 ∧ ex.2.length = cfg.numLandmarks := by
  constructor
  · have h1 := batchList_map_length cfg.batchSize hb
      (processedStream cfg shardShuffle recordShuffle params shards)
    have h2 : (processedStream cfg shardShuffle recordShuffle params shards).length
        = shards.flatten.length := by
      rw [processedStream_length]
      exact pipelineStream_length cfg shardShuffle recordShuffle shards hss hrs
    rw [← h2]
    exact h1
  · intro B hB ex hex
    have hmem : ex ∈ processedStream cfg shardShuffle recordShuffle params shards :=
      batchList_mem cfg.batchSize _ B hB ex hex
    simp only [processedStream, List.mem_map] at hmem
    obtain ⟨pr, hpr, hex2⟩ := hmem
    obtain ⟨r, idx⟩ := pr
    have hrmem : r ∈ pipelineStream cfg shardShuffle recordShuffle shards :=
      (List.of_mem_zip hpr).1
    have hrfl : r ∈ shards.flatten :=
      pipelineStream_mem cfg shardShuffle recordShuffle shards hss hrs r hrmem
    subst hex2
    have hspec := parseAndPreprocess_spec cfg (params idx) r (hrange r hrfl)
      (hkernel idx)
    exact ⟨hspec.1, hspec.2.1, hspec.2.2.1, hspec.2.2.2.1,
      by rw [hspec.2.2.2.2]; exact hcount r hrfl⟩

/-- Witness for claim C4 at a concrete input. -/
theorem c4_batch_shape_witness :
    (pipelineBatches cfgW4 id id (fun _ => apW) shardsW4).map List.length
        = batchSizes shardsW4.flatten.length cfgW4.batchSize
    ∧ ∀ B ∈ pipelineBatches cfgW4 id id (fun _ => apW) shardsW4, ∀ ex ∈ B,
        ex.1.d0 = 3 ∧ ex.1.d1 = cfgW4.imageHeight ∧ ex.1.d2 = cfgW4.imageWidth
        ∧ inRangeT ex.1 ∧ ex.2.length = cfgW4.numLandmarks :=
  c4_batch_shape cfgW4 id id (fun _ => apW) shardsW4
    (by norm_num [cfgW4]) rfl (List.Perm.refl _) (fun l => List.Perm.refl l)
    (by
      intro r hr
      have hr2 : r = recC4 := by simpa [shardsW4] using hr
      subst hr2
      intro i j c
      norm_num [recC4])
    (by
      intro r hr
      have hr2 : r = recC4 := by simpa [shardsW4] using hr
      subst hr2
      simp [recC4, cfgW4])
    (by
      intro i
      constructor
      · intro k hk
        have hk2 : k = (0, 0, 1) := by simpa [apW] using hk
        subst hk2
        norm_num
      · simp [apW])

end WingLoss

